import Mathlib

/-!
# Verification of the socs file-lifecycle synchronization engine

This file gives a shallow embedding of the parts of the repository that the
verified properties are about:

* `SupRsync` — the run loop of `agents/suprsync/suprsync.py` (`SupRsync.run`
  and `SupRsync._stop`), modelled at two levels: an event-trace semantics of
  a single loop iteration (transaction boundaries, database accesses, sleeps,
  exceptions) and a small interleaving transition system for the interaction
  between the run loop and the stop entry point.
* `PysmurfMonitor` — the ingestion path of
  `agents/pysmurf_monitor/pysmurf_monitor.py` (`PysmurfMonitor.__init__` and
  `PysmurfMonitor.datagramReceived`).
* `HwpPcu` — `process_action` and `HWPPCUAgent.main` of
  `socs/agents/hwp_pcu/agent.py`.

Durations that are floating-point configuration values in the Python code
(`timeout_wait`, the fixed 3 second sleep) are modelled as rationals; only
their identity, never their arithmetic, matters to the proved properties.
-/

namespace SupRsync

/-- The tri-state `copied` column of a suprsync file record, as described for
the `SupRsyncFile` table: not yet attempted / attempted-and-verified /
permanently failed. -/
inductive CopyState
  | unattempted
  | verified
  | permFailed
  deriving DecidableEq, Repr

/-- A file record of the suprsync database, restricted to the columns the
verified properties mention. -/
structure SupRsyncFile where
  local_path : String
  failed_copy_attempts : Nat
  copied : CopyState
  removed : Bool
  deriving DecidableEq, Repr

/-- The exceptions relevant to the run loop: `subprocess.TimeoutExpired`
(the only exception the loop catches) and a store/connection error raised by
the database layer. -/
inductive Exn
  | timeoutExpired
  | storeError
  deriving DecidableEq, Repr

/-- Observable events of one iteration of `SupRsync.run`:
transaction boundaries of `srfm.Session.begin()`, the `get_next_file`
selection, record mutations applied by `handler.handle_file`, the error log
in the `TimeoutExpired` handler, and the `time.sleep` calls. -/
inductive SupEvent
  | beginTxn
  | select
  | mutate (n : Nat)
  | logError
  | sleep (d : ℚ)
  | rollbackTxn
  | commitTxn
  deriving DecidableEq, Repr

/-- What `handler.handle_file(file, session)` does on a given call: the
record mutations it applies through the session before returning or raising,
and the exception it raises (if any).  The run loop treats `handle_file` as a
black box apart from these observables. -/
structure HandleBehavior where
  mutations : List Nat
  exn : Option Exn
  deriving Repr

/-- One iteration of the `while self.running` loop of `SupRsync.run`
(suprsync.py lines 86-100), as an event trace plus the exception that
escapes the iteration (if any):

* `with srfm.Session.begin() as session:` opens a transaction, commits it
  when the block exits normally and rolls it back (re-raising) when an
  exception escapes the block;
* `file = srfm.get_next_file(...)` selects inside that transaction — a store
  error here escapes the `with` block uncaught;
* if a file was returned, `handler.handle_file(file, session)` runs inside a
  `try` whose only handler is `except subprocess.TimeoutExpired`, which logs
  and then calls `time.sleep(self.timeout_wait)`; any other exception
  escapes the `with` block uncaught;
* `time.sleep(3)` runs at the end of the `with` block body, i.e. still
  inside the transaction.

`w` is `self.timeout_wait`; `sel` is the outcome of `get_next_file`; `hb`
gives the behavior of `handle_file` on the selected file. -/
def runIteration (w : ℚ) (sel : Except Exn (Option SupRsyncFile))
    (hb : SupRsyncFile → HandleBehavior) : List SupEvent × Option Exn :=
  match sel with
  | .error e => ([.beginTxn, .select, .rollbackTxn], some e)
  | .ok none => ([.beginTxn, .select, .sleep 3, .commitTxn], none)
  | .ok (some f) =>
    match (hb f).exn with
    | none =>
        (.beginTxn :: .select ::
          ((hb f).mutations.map SupEvent.mutate ++ [.sleep 3, .commitTxn]), none)
    | some .timeoutExpired =>
        (.beginTxn :: .select ::
          ((hb f).mutations.map SupEvent.mutate ++
            [.logError, .sleep w, .sleep 3, .commitTxn]), none)
    | some .storeError =>
        (.beginTxn :: .select ::
          ((hb f).mutations.map SupEvent.mutate ++ [.rollbackTxn]),
         some Exn.storeError)

/-- The `while self.running` loop of `SupRsync.run`: each list element is
one tick's `get_next_file` outcome (the ticks for which the running flag is
still true).  An exception escaping an iteration propagates out of the loop
— `run` has no surrounding handler — so the loop ends there and no later
tick runs. -/
def run (w : ℚ) (hb : SupRsyncFile → HandleBehavior) :
    List (Except Exn (Option SupRsyncFile)) → List SupEvent × Option Exn
  | [] => ([], none)
  | i :: rest =>
    match runIteration w i hb with
    | (tr, some e) => (tr, some e)
    | (tr, none) => (tr ++ (run w hb rest).1, (run w hb rest).2)

/-- Events that open or close a store transaction. -/
def isTxnBoundary : SupEvent → Bool
  | .beginTxn => true
  | .commitTxn => true
  | .rollbackTxn => true
  | _ => false

/-- Events that touch the record store (selection or record mutation). -/
def isDbAccess : SupEvent → Bool
  | .select => true
  | .mutate _ => true
  | _ => false

/-- A concrete `handle_file` behavior: succeeds without mutations.  Used to
instantiate universally quantified statements at concrete inputs. -/
def hbNone : SupRsyncFile → HandleBehavior := fun _ => ⟨[], none⟩

/-- A concrete `handle_file` behavior: applies one mutation, then raises
`subprocess.TimeoutExpired`. -/
def hbTimeout : SupRsyncFile → HandleBehavior := fun _ => ⟨[7], some .timeoutExpired⟩

/-- A concrete file record. -/
def someFile : SupRsyncFile :=
  { local_path := "/data/timestreams/16837/obs1.g3"
    failed_copy_attempts := 1
    copied := CopyState.unattempted
    removed := false }

/-- Modelled from the spec: `SupRsyncFileHandler.handle_file` lives in
`socs/db/suprsync.py`, which is not among the sources.  Per the spec, a copy
operation exceeding its timeout "is treated as a transient failure
(increments the attempt counter, does not mark permanently failed unless the
ceiling is reached)".  This is the record transformation a timed-out copy
attempt applies to the selected record. -/
def handle_file_timeout (max_copy_attempts : Nat) (f : SupRsyncFile) : SupRsyncFile :=
  let f1 : SupRsyncFile := { f with failed_copy_attempts := f.failed_copy_attempts + 1 }
  if max_copy_attempts ≤ f1.failed_copy_attempts then
    { f1 with copied := CopyState.permFailed }
  else f1

end SupRsync

namespace SupRsync.LoopSys

/-!
An interleaving model of the interaction between the `run` process and the
`_stop` entry point of `SupRsync` (suprsync.py lines 86-104).  The run loop
is a program counter walking through the stages of one iteration — the
`while self.running` test, `get_next_file`, the handling of the file, and
the sleeps at the end of the body — and `_stop` is a second thread whose
single step is the whole body of `SupRsync._stop` (set `self.running =
False`, set the session status, return). -/

/-- Program counter of the `while self.running` loop: the flag test, the
stages of the loop body (selection, file handling, end-of-body sleeps), and
the exited state. -/
inductive PC
  | test
  | select
  | handle
  | sleep
  | done
  deriving DecidableEq, Repr, Fintype

/-- Joint state of the run process and a pending `_stop` call:
`running` is `self.running`, `pc` the loop's position, and `stopReturned`
records whether the `_stop` call has returned. -/
structure SysState where
  running : Bool
  pc : PC
  stopReturned : Bool
  deriving DecidableEq, Repr, Fintype

/-- The two threads that can take a step. -/
inductive Thread
  | loopT
  | stopCall
  deriving DecidableEq, Repr, Fintype

/-- One interleaved step.  The loop thread reads `self.running` only at the
`while` test; the body stages never consult it.  The `stopCall` thread is
`SupRsync._stop`: it sets `self.running = False` and returns in the same
step — it does not wait on the loop. -/
def step (s : SysState) : Thread → SysState
  | .loopT =>
    match s.pc with
    | .test => if s.running then { s with pc := .select } else { s with pc := .done }
    | .select => { s with pc := .handle }
    | .handle => { s with pc := .sleep }
    | .sleep => { s with pc := .test }
    | .done => s
  | .stopCall => { s with running := false, stopReturned := true }

/-- Run a schedule of interleaved steps. -/
def runTrace (s : SysState) : List Thread → SysState
  | [] => s
  | t :: ts => runTrace (step s t) ts

/-- State at entry of the run process: flag set, loop at the `while` test,
no `_stop` call yet. -/
def init : SysState := { running := true, pc := PC.test, stopReturned := false }

/-- The loop body's successor stage: the stage the loop thread moves to from
each mid-iteration position, independent of any flag. -/
def bodySucc : PC → PC
  | .test => .test
  | .select => .handle
  | .handle => .sleep
  | .sleep => .test
  | .done => .done

end SupRsync.LoopSys

namespace PysmurfMonitor

/-!
Embedding of the ingestion path of
`agents/pysmurf_monitor/pysmurf_monitor.py`: the `base_file_info` dict built
in `PysmurfMonitor.__init__` (lines 55-61) and the `datagramReceived`
handler (lines 83-109). -/

/-- The payload dict of a pysmurf publisher message, restricted to the keys
`datagramReceived` reads.  `copied0` and `failed_copy_attempts0` stand for
`copied` / `failed_copy_attempts` keys that may or may not be present in the
received JSON dict — `d.update(self.base_file_info)` overwrites both keys
unconditionally, so the entry built by `datagramReceived` never depends on
them. -/
structure Payload where
  path : String
  timestamp : ℚ
  plot : Bool
  copied0 : Option Nat
  failed_copy_attempts0 : Option Nat
  deriving DecidableEq, Repr

/-- A received UDP message, after `json.loads`. -/
structure Message where
  type : String
  payload : Payload
  deriving DecidableEq, Repr

/-- The shared file info dict `self.base_file_info` built in
`PysmurfMonitor.__init__`. -/
structure BaseFileInfo where
  site : String
  instance_id : String
  copied : Nat
  failed_copy_attempts : Nat
  socs_version : String
  deriving DecidableEq, Repr

/-- `PysmurfMonitor.__init__` lines 55-61: the `base_file_info` dict, with
`copied` and `failed_copy_attempts` both literal `0`. -/
def base_file_info (site instance_id socs_version : String) : BaseFileInfo :=
  { site := site
    instance_id := instance_id
    copied := 0
    failed_copy_attempts := 0
    socs_version := socs_version }

/-- The row handed to `pysmurf_files_manager.add_entry`: the payload copy
`d` after the mutations of `datagramReceived` lines 99-105. -/
structure Entry where
  path : String
  timestamp : ℚ
  md5sum : String
  plot : Nat
  site : String
  instance_id : String
  copied : Nat
  failed_copy_attempts : Nat
  socs_version : String
  deriving DecidableEq, Repr

/-- Observable events of one `datagramReceived` call: the "New file" log,
the `get_md5sum` computation on a path, and the store insertion of an
entry. -/
inductive MonEvent
  | logNewFile (path : String)
  | computeMd5 (path : String)
  | insert (e : Entry)
  deriving DecidableEq, Repr

/-- The dict `d` built by `datagramReceived` lines 99-105:
`d = data['payload'].copy()`, then `d['timestamp']` is converted (`utc` is
the `datetime.datetime.utcfromtimestamp` conversion), `d['md5sum'] =
get_md5sum(d['path'])` (`md5` is the filesystem checksum oracle at receive
time), `d['plot'] = int(d['plot'])`, and finally
`d.update(self.base_file_info)` — which overwrites any `copied` /
`failed_copy_attempts` keys of the payload with the values of `base`. -/
def buildEntry (md5 : String → String) (utc : ℚ → ℚ) (base : BaseFileInfo)
    (p : Payload) : Entry :=
  { path := p.path
    timestamp := utc p.timestamp
    md5sum := md5 p.path
    plot := if p.plot then 1 else 0
    site := base.site
    instance_id := base.instance_id
    copied := base.copied
    failed_copy_attempts := base.failed_copy_attempts
    socs_version := base.socs_version }

/-- `PysmurfMonitor.datagramReceived` (lines 83-109) as an event trace: for
a message whose `type` is `data_file`, it logs the new file, computes the
md5 checksum of the file at the published path while building `d`, and
schedules the insertion of the finished row; for every other message type it
does nothing. -/
def datagramReceived (md5 : String → String) (utc : ℚ → ℚ)
    (base : BaseFileInfo) (m : Message) : List MonEvent :=
  if m.type = "data_file" then
    [MonEvent.logNewFile m.payload.path,
     MonEvent.computeMd5 m.payload.path,
     MonEvent.insert (buildEntry md5 utc base m.payload)]
  else []

/-- A concrete data_file message, to instantiate quantified statements. -/
def someMessage : Message :=
  { type := "data_file"
    payload :=
      { path := "/data/smurf/1683700000_tune.npy"
        timestamp := 1683700000
        plot := false
        copied0 := some 1
        failed_copy_attempts0 := some 5 } }

end PysmurfMonitor

namespace HwpPcu

/-!
Embedding of `socs/agents/hwp_pcu/agent.py`: the `process_action` function
(lines 27-53) and the startup-cancellation phase of `HWPPCUAgent.main`
(lines 115-137) together with `HWPPCUAgent._process_actions`. -/

/-- A relay call issued to the PCU hardware. -/
inductive RelayCall
  | relay_off (i : Nat)
  | relay_on (i : Nat)
  deriving DecidableEq, Repr

/-- The dict returned by `process_action`:
`dict(off_channel=off_channel, on_channel=on_channel)`. -/
structure ActionResult where
  off_channel : List Nat
  on_channel : List Nat
  deriving DecidableEq, Repr

/-- The `if/elif` chain of `process_action` (lines 30-43): both channel
lists start empty and are reassigned according to the command. -/
def channelLists (command : String) : List Nat × List Nat :=
  if command = "off" then ([0, 1, 2, 5, 6, 7], [])
  else if command = "on_1" then ([5, 6, 7], [0, 1, 2])
  else if command = "on_2" then ([], [0, 1, 2, 5, 6, 7])
  else if command = "stop" then ([0, 6, 7], [1, 2, 5])
  else ([], [])

/-- `process_action` on a `SendCommand` action: the returned dict together
with the relay calls issued to the hardware — `PCU.relay_off(i)` for each
`i` in `off_channel`, in order, then `PCU.relay_on(i)` for each `i` in
`on_channel`, in order. -/
def process_action (command : String) : ActionResult × List RelayCall :=
  let c := channelLists command
  (⟨c.1, c.2⟩,
   c.1.map RelayCall.relay_off ++ c.2.map RelayCall.relay_on)

/-- Whether a relay call is a `relay_off`. -/
def isOff : RelayCall → Bool
  | .relay_off _ => true
  | .relay_on _ => false

/-- Whether a relay call is a `relay_on`. -/
def isOn : RelayCall → Bool
  | .relay_off _ => false
  | .relay_on _ => true

/-- Observable events of `HWPPCUAgent.main`, with queued actions identified
by a tag: `errback a` is `action.deferred.errback(...)` fired on action `a`,
`sent a` is `process_action(action, PCU)` being invoked on `a` (the command
reaching the PCU hardware). -/
inductive MainEvent
  | errback (a : Nat)
  | sent (a : Nat)
  deriving DecidableEq, Repr

/-- The startup-cancellation loop of `HWPPCUAgent.main` (lines 123-125):
`while not self.action_queue.empty(): action = self.action_queue.get();
action.deferred.errback(...)`.  Returns the errback events in queue order
and the queue contents left when the loop exits. -/
def cancelPending : List Nat → List MainEvent × List Nat
  | [] => ([], [])
  | a :: q =>
    (MainEvent.errback a :: (cancelPending q).1, (cancelPending q).2)

/-- `HWPPCUAgent._process_actions` (lines 94-103): drains the current queue,
invoking `process_action` on each action in order. -/
def process_actions : List Nat → List MainEvent
  | [] => []
  | a :: q => MainEvent.sent a :: process_actions q

/-- The polling loop of `HWPPCUAgent.main` (lines 128-135): at each tick the
queue holds what the previous tick left (nothing — `_process_actions`
drains it) plus the actions enqueued by `send_command` since the previous
tick (`batch`). -/
def pollLoop : List Nat → List (List Nat) → List MainEvent
  | q, [] => process_actions q
  | q, batch :: rest => process_actions (q ++ batch) ++ pollLoop [] rest

/-- `HWPPCUAgent.main` (lines 115-137) as an event trace: the startup
cancellation of everything already in `self.action_queue`, then the polling
loop over the batches of later-arriving actions. -/
def main (initQueue : List Nat) (arrivals : List (List Nat)) : List MainEvent :=
  (cancelPending initQueue).1 ++ pollLoop (cancelPending initQueue).2 arrivals

end HwpPcu

/-! ## Theorems -/

namespace SupRsync

lemma isTxnBoundary_map_mutate {l : List Nat} {e : SupEvent}
    (he : e ∈ l.map SupEvent.mutate) : isTxnBoundary e = false := by
  obtain ⟨n, -, rfl⟩ := List.mem_map.1 he
  rfl

/-- C1: In every iteration of the `SupRsync.run` loop, the `get_next_file`
selection and every mutation applied by `handle_file` happen strictly
between the opening of the iteration's store transaction and its single
closing (commit or rollback): selection and mutation form one transactional
unit, so two engine instances acting on the same archive are serialized by
the store's transactional isolation. -/
theorem select_and_mutations_in_one_transaction
    (w : ℚ) (sel : Except Exn (Option SupRsyncFile))
    (hb : SupRsyncFile → HandleBehavior) :
    ∃ mid close,
      (runIteration w sel hb).1 = SupEvent.beginTxn :: (mid ++ [close]) ∧
      (close = SupEvent.commitTxn ∨ close = SupEvent.rollbackTxn) ∧
      (∀ e ∈ mid, isTxnBoundary e = false) ∧
      SupEvent.select ∈ mid ∧
      (∀ f, sel = Except.ok (some f) →
        ∀ n ∈ (hb f).mutations, SupEvent.mutate n ∈ mid) := by
  cases sel with
  | error e =>
      refine ⟨[SupEvent.select], SupEvent.rollbackTxn, by simp [runIteration],
        Or.inr rfl, ?_, by simp, by intro f hf; simp at hf⟩
      intro e he
      simp only [List.mem_singleton] at he
      subst he; rfl
  | ok o =>
    cases o with
    | none =>
        refine ⟨[SupEvent.select, SupEvent.sleep 3], SupEvent.commitTxn,
          by simp [runIteration], Or.inl rfl, ?_, by simp, by intro f hf; simp at hf⟩
        intro e he
        rcases List.mem_cons.1 he with rfl | he
        · rfl
        simp only [List.mem_singleton] at he
        subst he; rfl
    | some f =>
      cases hx : (hb f).exn with
      | none =>
          refine ⟨SupEvent.select ::
              ((hb f).mutations.map SupEvent.mutate ++ [SupEvent.sleep 3]),
            SupEvent.commitTxn, by simp [runIteration, hx], Or.inl rfl, ?_,
            List.mem_cons_self _ _, ?_⟩
          · intro e he
            rcases List.mem_cons.1 he with rfl | he
            · rfl
            rcases List.mem_append.1 he with he | he
            · exact isTxnBoundary_map_mutate he
            simp only [List.mem_singleton] at he
            subst he; rfl
          · intro f' hf' n hn
            rw [Except.ok.injEq, Option.some.injEq] at hf'
            subst hf'
            exact List.mem_cons_of_mem _
              (List.mem_append_left _ (List.mem_map_of_mem _ hn))
      | some ex =>
        cases ex with
        | timeoutExpired =>
            refine ⟨SupEvent.select ::
                ((hb f).mutations.map SupEvent.mutate ++
                  [SupEvent.logError, SupEvent.sleep w, SupEvent.sleep 3]),
              SupEvent.commitTxn, by simp [runIteration, hx], Or.inl rfl, ?_,
              List.mem_cons_self _ _, ?_⟩
            · intro e he
              rcases List.mem_cons.1 he with rfl | he
              · rfl
              rcases List.mem_append.1 he with he | he
              · exact isTxnBoundary_map_mutate he
              rcases List.mem_cons.1 he with rfl | he
              · rfl
              rcases List.mem_cons.1 he with rfl | he
              · rfl
              simp only [List.mem_singleton] at he
              subst he; rfl
            · intro f' hf' n hn
              rw [Except.ok.injEq, Option.some.injEq] at hf'
              subst hf'
              exact List.mem_cons_of_mem _
                (List.mem_append_left _ (List.mem_map_of_mem _ hn))
        | storeError =>
            refine ⟨SupEvent.select :: (hb f).mutations.map SupEvent.mutate,
              SupEvent.rollbackTxn, by simp [runIteration, hx], Or.inr rfl, ?_,
              List.mem_cons_self _ _, ?_⟩
            · intro e he
              rcases List.mem_cons.1 he with rfl | he
              · rfl
              exact isTxnBoundary_map_mutate he
            · intro f' hf' n hn
              rw [Except.ok.injEq, Option.some.injEq] at hf'
              subst hf'
              exact List.mem_cons_of_mem _ (List.mem_map_of_mem _ hn)

/-- C1 witness: the transactional-unit shape at a concrete iteration (a
selected file whose handling times out). -/
theorem select_and_mutations_in_one_transaction_witness :
    ∃ mid close,
      (runIteration 20 (Except.ok (some someFile)) hbTimeout).1 =
        SupEvent.beginTxn :: (mid ++ [close]) ∧
      (close = SupEvent.commitTxn ∨ close = SupEvent.rollbackTxn) ∧
      (∀ e ∈ mid, isTxnBoundary e = false) ∧
      SupEvent.select ∈ mid ∧
      (∀ f, (Except.ok (some someFile) : Except Exn (Option SupRsyncFile)) =
          Except.ok (some f) →
        ∀ n ∈ (hbTimeout f).mutations, SupEvent.mutate n ∈ mid) :=
  select_and_mutations_in_one_transaction 20 (Except.ok (some someFile)) hbTimeout

end SupRsync

namespace SupRsync

/-- C2 counterexample: at a tick where `get_next_file` raises a store error,
the error is not caught (it escapes the loop as `some Exn.storeError`), no
error log is emitted, and the following tick never runs — the whole trace of
the two-tick loop is just the first iteration's aborted transaction.  This
refutes the claim that a store error is caught, logged, and retried on the
next tick. -/
theorem store_error_not_caught_cex :
    run 20 hbNone [Except.error Exn.storeError, Except.ok none] =
      ([SupEvent.beginTxn, SupEvent.select, SupEvent.rollbackTxn],
        some Exn.storeError) ∧
    SupEvent.logError ∉
      (run 20 hbNone [Except.error Exn.storeError, Except.ok none]).1 := by
  refine ⟨rfl, ?_⟩
  intro h
  simp [run, runIteration] at h

/-- C2 amended: the only exception the run loop catches is
`subprocess.TimeoutExpired` — a timed-out handling is logged, followed by the
cooldown sleep, and the loop goes on to the next tick; a store error raised
by selection or by handling escapes the iteration uncaught, and the loop
terminates with it (no retry on the next tick). -/
theorem only_timeout_expired_is_caught
    (w : ℚ) (hb : SupRsyncFile → HandleBehavior) (f : SupRsyncFile)
    (rest : List (Except Exn (Option SupRsyncFile))) :
    ((hb f).exn = some Exn.timeoutExpired →
      (runIteration w (Except.ok (some f)) hb).2 = none ∧
      SupEvent.logError ∈ (runIteration w (Except.ok (some f)) hb).1 ∧
      run w hb (Except.ok (some f) :: rest) =
        ((runIteration w (Except.ok (some f)) hb).1 ++ (run w hb rest).1,
          (run w hb rest).2)) ∧
    (∀ e, (runIteration w (Except.error e) hb).2 = some e) ∧
    ((hb f).exn = some Exn.storeError →
      (runIteration w (Except.ok (some f)) hb).2 = some Exn.storeError) ∧
    (∀ i, (runIteration w i hb).2 = some Exn.storeError →
      run w hb (i :: rest) =
        ((runIteration w i hb).1, some Exn.storeError)) := by
  refine ⟨?_, ?_, ?_, ?_⟩
  · intro hto
    refine ⟨by simp [runIteration, hto], by simp [runIteration, hto], ?_⟩
    show (match runIteration w (Except.ok (some f)) hb with
      | (tr, some e) => (tr, some e)
      | (tr, none) => (tr ++ (run w hb rest).1, (run w hb rest).2)) = _
    simp [runIteration, hto]
  · intro e; simp [runIteration]
  · intro hse; simp [runIteration, hse]
  · intro i hi
    show (match runIteration w i hb with
      | (tr, some e) => (tr, some e)
      | (tr, none) => (tr ++ (run w hb rest).1, (run w hb rest).2)) =
      ((runIteration w i hb).1, some Exn.storeError)
    rcases hr : runIteration w i hb with ⟨tr, exn⟩
    rw [hr] at hi
    simp only [Prod.snd] at hi
    rw [hi]

/-- C2 amended witness: the amended statement at a concrete timed-out
handling and a concrete store-error tick. -/
theorem only_timeout_expired_is_caught_witness :
    ((hbTimeout someFile).exn = some Exn.timeoutExpired ∧
      (runIteration 20 (Except.ok (some someFile)) hbTimeout).2 = none ∧
      SupEvent.logError ∈
        (runIteration 20 (Except.ok (some someFile)) hbTimeout).1) ∧
    ((runIteration 20 (Except.error Exn.storeError) hbTimeout).2 =
        some Exn.storeError ∧
      run 20 hbTimeout [Except.error Exn.storeError] =
        ((runIteration 20 (Except.error Exn.storeError) hbTimeout).1,
          some Exn.storeError)) := by
  have h := only_timeout_expired_is_caught 20 hbTimeout someFile []
  have hto : (hbTimeout someFile).exn = some Exn.timeoutExpired := rfl
  refine ⟨⟨hto, (h.1 hto).1, (h.1 hto).2.1⟩,
    h.2.1 Exn.storeError, h.2.2.2 (Except.error Exn.storeError) ?_⟩
  exact (h.2.1 Exn.storeError).trans rfl

end SupRsync

namespace SupRsync

/-- C4 counterexample: an iteration (empty-selection tick, `timeout_wait` of
20) whose trace is `begin, select, sleep 3, commit` — the fixed
inter-iteration `time.sleep(3)` occurs at index 2, before the transaction
commit at index 3.  This refutes the claim that the transaction is
committed/released before the fixed sleep begins: the sleep runs inside the
`with srfm.Session.begin()` block. -/
theorem commit_before_sleep_cex :
    (runIteration 20 (Except.ok none) hbNone).1 =
      [SupEvent.beginTxn, SupEvent.select, SupEvent.sleep 3,
        SupEvent.commitTxn] ∧
    (runIteration 20 (Except.ok none) hbNone).1.indexOf (SupEvent.sleep 3) = 2 ∧
    (runIteration 20 (Except.ok none) hbNone).1.indexOf SupEvent.commitTxn = 3 := by
  refine ⟨rfl, ?_, ?_⟩ <;> decide

/-- C4 amended: in every iteration that completes without an uncaught
exception, the fixed inter-iteration sleep occurs inside the transaction;
the transaction is committed only after the sleep finishes — the trace of
such an iteration always ends `..., sleep 3, commit`. -/
theorem sleep_inside_transaction
    (w : ℚ) (sel : Except Exn (Option SupRsyncFile))
    (hb : SupRsyncFile → HandleBehavior)
    (h : (runIteration w sel hb).2 = none) :
    ∃ pre, (runIteration w sel hb).1 =
      pre ++ [SupEvent.sleep 3, SupEvent.commitTxn] := by
  cases sel with
  | error e => simp [runIteration] at h
  | ok o =>
    cases o with
    | none =>
        exact ⟨[SupEvent.beginTxn, SupEvent.select], by simp [runIteration]⟩
    | some f =>
      cases hx : (hb f).exn with
      | none =>
          refine ⟨SupEvent.beginTxn :: SupEvent.select ::
            (hb f).mutations.map SupEvent.mutate, ?_⟩
          simp [runIteration, hx]
      | some ex =>
        cases ex with
        | timeoutExpired =>
            refine ⟨SupEvent.beginTxn :: SupEvent.select ::
              ((hb f).mutations.map SupEvent.mutate ++
                [SupEvent.logError, SupEvent.sleep w]), ?_⟩
            simp [runIteration, hx]
        | storeError => simp [runIteration, hx] at h

/-- C4 amended witness: the `..., sleep 3, commit` tail at a concrete
iteration. -/
theorem sleep_inside_transaction_witness :
    ∃ pre, (runIteration 20 (Except.ok none) hbNone).1 =
      pre ++ [SupEvent.sleep 3, SupEvent.commitTxn] :=
  sleep_inside_transaction 20 (Except.ok none) hbNone rfl

/-- C5: a handling that raises `subprocess.TimeoutExpired` is transient:
the (spec-modelled) record transformation of a timed-out copy attempt
increments `failed_copy_attempts` by exactly one and does not mark the
record permanently failed while the new counter is still under the ceiling;
and the run loop's iteration catches the timeout, so its trace ends with the
`timeout_wait` cooldown sleep followed by the fixed sleep and the commit,
all of which precede every event of the next tick. -/
theorem timeout_is_transient_with_cooldown
    (w : ℚ) (max_copy_attempts : Nat) (f : SupRsyncFile)
    (hb : SupRsyncFile → HandleBehavior)
    (rest : List (Except Exn (Option SupRsyncFile)))
    (hto : (hb f).exn = some Exn.timeoutExpired) :
    (handle_file_timeout max_copy_attempts f).failed_copy_attempts =
      f.failed_copy_attempts + 1 ∧
    (f.copied ≠ CopyState.permFailed →
      (handle_file_timeout max_copy_attempts f).failed_copy_attempts <
        max_copy_attempts →
      (handle_file_timeout max_copy_attempts f).copied ≠
        CopyState.permFailed) ∧
    (∃ pre, (runIteration w (Except.ok (some f)) hb).1 =
      pre ++ [SupEvent.logError, SupEvent.sleep w, SupEvent.sleep 3,
        SupEvent.commitTxn]) ∧
    run w hb (Except.ok (some f) :: rest) =
      ((runIteration w (Except.ok (some f)) hb).1 ++ (run w hb rest).1,
        (run w hb rest).2) := by
  refine ⟨?_, ?_, ?_, ?_⟩
  · simp only [handle_file_timeout]
    split_ifs <;> rfl
  · intro hc hlt
    simp only [handle_file_timeout] at hlt ⊢
    split_ifs at hlt ⊢ with h
    · dsimp only at hlt
      omega
    · exact hc
  · refine ⟨SupEvent.beginTxn :: SupEvent.select ::
      (hb f).mutations.map SupEvent.mutate, ?_⟩
    simp [runIteration, hto]
  · show (match runIteration w (Except.ok (some f)) hb with
      | (tr, some e) => (tr, some e)
      | (tr, none) => (tr ++ (run w hb rest).1, (run w hb rest).2)) = _
    simp [runIteration, hto]

/-- C5 witness: the transient-timeout statement at a concrete record (one
prior failed attempt), ceiling 3, `timeout_wait` 20, and a handling that
times out. -/
theorem timeout_is_transient_with_cooldown_witness :
    (hbTimeout someFile).exn = some Exn.timeoutExpired ∧
    ((handle_file_timeout 3 someFile).failed_copy_attempts =
        someFile.failed_copy_attempts + 1 ∧
      (someFile.copied ≠ CopyState.permFailed →
        (handle_file_timeout 3 someFile).failed_copy_attempts < 3 →
        (handle_file_timeout 3 someFile).copied ≠ CopyState.permFailed) ∧
      (∃ pre, (runIteration 20 (Except.ok (some someFile)) hbTimeout).1 =
        pre ++ [SupEvent.logError, SupEvent.sleep 20, SupEvent.sleep 3,
          SupEvent.commitTxn]) ∧
      run 20 hbTimeout [Except.ok (some someFile)] =
        ((runIteration 20 (Except.ok (some someFile)) hbTimeout).1 ++
            (run 20 hbTimeout []).1,
          (run 20 hbTimeout []).2)) :=
  ⟨rfl, timeout_is_transient_with_cooldown 20 3 someFile hbTimeout [] rfl⟩

end SupRsync

namespace SupRsync.LoopSys

/-- C3 counterexample: start the run loop, let it reach the file-handling
stage of an iteration, then call `_stop`.  The `_stop` call has returned
(`stopReturned = true`) while the loop is still mid-iteration
(`pc = PC.handle`): `_stop` does not wait for the in-flight iteration to
complete — it only clears `self.running` and returns. -/
theorem stop_waits_for_iteration_cex :
    (runTrace init [Thread.loopT, Thread.loopT, Thread.stopCall]).stopReturned =
      true ∧
    (runTrace init [Thread.loopT, Thread.loopT, Thread.stopCall]).pc =
      PC.handle := by
  exact ⟨rfl, rfl⟩

/-- C3 amended: `_stop` sets `self.running = False` and returns in the same
step, regardless of where the run loop stands — it returns immediately, not
after the in-flight iteration; the loop itself exits only at the
`while self.running` boundary test (the iteration in flight at the time of
the call still runs to completion, but `_stop` does not wait for it). -/
theorem stop_returns_immediately (s : SysState) :
    step s Thread.stopCall =
      { s with running := false, stopReturned := true } ∧
    (step s Thread.stopCall).pc = s.pc ∧
    ((step s Thread.loopT).pc = PC.done →
      s.pc = PC.done ∨ (s.pc = PC.test ∧ s.running = false)) := by
  revert s
  decide

/-- C3 amended witness: `_stop` at a concrete mid-iteration state, and the
loop-exit implication at a concrete boundary state whose hypothesis holds. -/
theorem stop_returns_immediately_witness :
    (step { running := false, pc := PC.test, stopReturned := true }
        Thread.loopT).pc = PC.done ∧
    (({ running := false, pc := PC.test, stopReturned := true } : SysState).pc =
        PC.done ∨
      (({ running := false, pc := PC.test, stopReturned := true } : SysState).pc =
          PC.test ∧
        ({ running := false, pc := PC.test, stopReturned := true } :
            SysState).running = false)) ∧
    step { running := true, pc := PC.handle, stopReturned := false }
        Thread.stopCall =
      { running := false, pc := PC.handle, stopReturned := true } :=
  ⟨by decide,
   (stop_returns_immediately
      { running := false, pc := PC.test, stopReturned := true }).2.2 (by decide),
   (stop_returns_immediately
      { running := true, pc := PC.handle, stopReturned := false }).1⟩

/-- C6: a stop request is honored only at the iteration boundary.  The
`self.running` flag is consulted exactly at the `while` test, which either
enters the selection stage or exits the loop; a step can land on the exited
state only from that test (with the flag cleared); mid-iteration stages
advance identically whatever the value of the flag (a `_stop` arriving
mid-iteration interrupts nothing); and the `_stop` step itself never moves
the loop's program counter. -/
theorem stop_honored_at_iteration_boundary :
    ∀ (s : SysState) (t : Thread) (b : Bool),
      (s.pc = PC.test →
        step s Thread.loopT =
          (if s.running then { s with pc := PC.select }
            else { s with pc := PC.done })) ∧
      ((step s t).pc = PC.done →
        s.pc = PC.done ∨
          (s.pc = PC.test ∧ s.running = false ∧ t = Thread.loopT)) ∧
      (s.pc ≠ PC.test →
        (step { s with running := b } Thread.loopT).pc =
          (step s Thread.loopT).pc) ∧
      (s.pc ≠ PC.test → s.pc ≠ PC.done →
        (step s Thread.loopT).pc = bodySucc s.pc) := by
  decide

/-- C6 witness: the boundary statement at concrete states — a handling
stage advances to the sleep stage whether or not the flag was cleared
mid-iteration, and the loop's only route to the exited state is the test
with the flag down. -/
theorem stop_honored_at_iteration_boundary_witness :
    (({ running := true, pc := PC.handle, stopReturned := true } :
        SysState).pc ≠ PC.test ∧
      (step { running := true, pc := PC.handle, stopReturned := true }
          Thread.loopT).pc = bodySucc PC.handle) ∧
    ((step { running := true, pc := PC.handle, stopReturned := true }
          Thread.stopCall).pc ≠ PC.done) ∧
    (step { running := false, pc := PC.handle, stopReturned := true }
        Thread.loopT).pc =
      (step { running := true, pc := PC.handle, stopReturned := true }
          Thread.loopT).pc :=
  ⟨⟨by decide,
    (stop_honored_at_iteration_boundary
        { running := true, pc := PC.handle, stopReturned := true }
        Thread.loopT true).2.2.2 (by decide) (by decide)⟩,
   by decide,
   (stop_honored_at_iteration_boundary
      { running := true, pc := PC.handle, stopReturned := true }
      Thread.loopT false).2.2.1 (by decide)⟩

end SupRsync.LoopSys

namespace PysmurfMonitor

/-- Whether an ingestion event is a checksum computation. -/
def isComputeMd5 : MonEvent → Bool
  | .computeMd5 _ => true
  | _ => false

/-- A concrete checksum oracle. -/
def someMd5 : String → String := fun _ => "9e107d9d372bb6826bd81d3542a419d6"

/-- A concrete timestamp conversion. -/
def someUtc : ℚ → ℚ := id

/-- C7: for every received `data_file` event, `datagramReceived` computes
the md5 checksum of the file at the published path exactly once, stores that
checksum (and that path) on the inserted record, and every checksum
computation in the call's trace happens strictly before the insertion —
after the insertion event no checksum is ever computed. -/
theorem md5_computed_once_before_insert
    (md5 : String → String) (utc : ℚ → ℚ) (base : BaseFileInfo) (m : Message)
    (h : m.type = "data_file") :
    (datagramReceived md5 utc base m).countP isComputeMd5 = 1 ∧
    (∀ e, MonEvent.insert e ∈ datagramReceived md5 utc base m →
      e.md5sum = md5 m.payload.path ∧ e.path = m.payload.path) ∧
    (∀ l1 e l2, datagramReceived md5 utc base m =
        l1 ++ MonEvent.insert e :: l2 →
      MonEvent.computeMd5 m.payload.path ∈ l1 ∧
        ∀ p, MonEvent.computeMd5 p ∉ l2) := by
  refine ⟨?_, ?_, ?_⟩
  · simp [datagramReceived, h, List.countP_cons, isComputeMd5]
  · intro e he
    simp only [datagramReceived, h, if_pos, List.mem_cons, List.not_mem_nil,
      or_false] at he
    rcases he with he | he | he
    · cases he
    · cases he
    · rw [MonEvent.insert.injEq] at he
      subst he
      exact ⟨rfl, rfl⟩
  · intro l1 e l2 heq
    simp only [datagramReceived, h, if_pos] at heq
    rcases l1 with - | ⟨a, - | ⟨b, - | ⟨c, l⟩⟩⟩ <;> simp_all

/-- C7 witness: the checksum discipline at a concrete `data_file` message. -/
theorem md5_computed_once_before_insert_witness :
    (datagramReceived someMd5 someUtc
        (base_file_info "observatory" "pysmurf-monitor" "0.5.0")
        someMessage).countP isComputeMd5 = 1 ∧
    (∀ e, MonEvent.insert e ∈ datagramReceived someMd5 someUtc
        (base_file_info "observatory" "pysmurf-monitor" "0.5.0") someMessage →
      e.md5sum = someMd5 someMessage.payload.path ∧
        e.path = someMessage.payload.path) ∧
    (∀ l1 e l2, datagramReceived someMd5 someUtc
        (base_file_info "observatory" "pysmurf-monitor" "0.5.0") someMessage =
        l1 ++ MonEvent.insert e :: l2 →
      MonEvent.computeMd5 someMessage.payload.path ∈ l1 ∧
        ∀ p, MonEvent.computeMd5 p ∉ l2) :=
  md5_computed_once_before_insert someMd5 someUtc
    (base_file_info "observatory" "pysmurf-monitor" "0.5.0") someMessage rfl

/-- C8: every record the ingestion path inserts starts unattempted — its
`copied` field is `0` and its `failed_copy_attempts` field is `0` at
insertion time, for every received message and payload (the
`d.update(self.base_file_info)` overwrite makes this independent of any
`copied` / `failed_copy_attempts` keys the payload may carry). -/
theorem inserted_records_start_unattempted
    (md5 : String → String) (utc : ℚ → ℚ)
    (site instance_id socs_version : String) (m : Message) (e : Entry)
    (he : MonEvent.insert e ∈ datagramReceived md5 utc
      (base_file_info site instance_id socs_version) m) :
    e.copied = 0 ∧ e.failed_copy_attempts = 0 := by
  unfold datagramReceived at he
  by_cases h : m.type = "data_file"
  · simp only [h, if_pos, List.mem_cons, List.not_mem_nil, or_false] at he
    rcases he with he | he | he
    · cases he
    · cases he
    · rw [MonEvent.insert.injEq] at he
      subst he
      exact ⟨rfl, rfl⟩
  · simp [h] at he

/-- C8 witness: a concretely inserted record, with a payload that even
carries nonzero `copied` / `failed_copy_attempts` keys, starts with
`copied = 0` and `failed_copy_attempts = 0`. -/
theorem inserted_records_start_unattempted_witness :
    MonEvent.insert (buildEntry someMd5 someUtc
        (base_file_info "observatory" "pysmurf-monitor" "0.5.0")
        someMessage.payload) ∈
      datagramReceived someMd5 someUtc
        (base_file_info "observatory" "pysmurf-monitor" "0.5.0") someMessage ∧
    (buildEntry someMd5 someUtc
        (base_file_info "observatory" "pysmurf-monitor" "0.5.0")
        someMessage.payload).copied = 0 ∧
    (buildEntry someMd5 someUtc
        (base_file_info "observatory" "pysmurf-monitor" "0.5.0")
        someMessage.payload).failed_copy_attempts = 0 :=
  ⟨by simp [datagramReceived, someMessage],
   inserted_records_start_unattempted someMd5 someUtc
     "observatory" "pysmurf-monitor" "0.5.0" someMessage _
     (by simp [datagramReceived, someMessage])⟩

end PysmurfMonitor

namespace HwpPcu

/-- C9: `process_action` always issues exactly the relay calls its returned
dict reports — every `relay_off` of `off_channel` in order, then every
`relay_on` of `on_channel` in order (so all off calls precede every on
call).  For each of the four recognized commands the two lists are disjoint
and their union is exactly the relay set `{0, 1, 2, 5, 6, 7}` — every relay
is driven to a definite state; any other command string toggles no relay and
returns two empty lists. -/
theorem process_action_covers_all_relays (command : String) :
    (process_action command).2 =
      (process_action command).1.off_channel.map RelayCall.relay_off ++
        (process_action command).1.on_channel.map RelayCall.relay_on ∧
    (command = "off" ∨ command = "on_1" ∨ command = "on_2" ∨
        command = "stop" →
      (process_action command).1.off_channel.toFinset ∩
          (process_action command).1.on_channel.toFinset = ∅ ∧
      (process_action command).1.off_channel.toFinset ∪
          (process_action command).1.on_channel.toFinset =
        ({0, 1, 2, 5, 6, 7} : Finset Nat) ∧
      (∀ p q : Fin (process_action command).2.length,
        isOff ((process_action command).2.get p) = true →
        isOn ((process_action command).2.get q) = true →
        (p : Nat) < (q : Nat))) ∧
    (¬(command = "off" ∨ command = "on_1" ∨ command = "on_2" ∨
        command = "stop") →
      (process_action command).1.off_channel = [] ∧
      (process_action command).1.on_channel = [] ∧
      (process_action command).2 = []) := by
  by_cases h1 : command = "off"
  · subst h1
    exact ⟨rfl, fun _ => by decide, fun hn => absurd (Or.inl rfl) hn⟩
  by_cases h2 : command = "on_1"
  · subst h2
    exact ⟨rfl, fun _ => by decide, fun hn => absurd (Or.inr (Or.inl rfl)) hn⟩
  by_cases h3 : command = "on_2"
  · subst h3
    exact ⟨rfl, fun _ => by decide,
      fun hn => absurd (Or.inr (Or.inr (Or.inl rfl))) hn⟩
  by_cases h4 : command = "stop"
  · subst h4
    exact ⟨rfl, fun _ => by decide,
      fun hn => absurd (Or.inr (Or.inr (Or.inr rfl))) hn⟩
  refine ⟨rfl, fun hc => ?_, fun _ => ?_⟩
  · rcases hc with rfl | rfl | rfl | rfl
    · exact absurd rfl h1
    · exact absurd rfl h2
    · exact absurd rfl h3
    · exact absurd rfl h4
  · refine ⟨?_, ?_, ?_⟩ <;>
      simp [process_action, channelLists, h1, h2, h3, h4]

/-- C9 witness: the covering statement at the concrete command `stop` (whose
hypothesis holds) and at a concrete unrecognized command. -/
theorem process_action_covers_all_relays_witness :
    ((process_action "stop").1.off_channel.toFinset ∩
        (process_action "stop").1.on_channel.toFinset = ∅ ∧
      (process_action "stop").1.off_channel.toFinset ∪
          (process_action "stop").1.on_channel.toFinset =
        ({0, 1, 2, 5, 6, 7} : Finset Nat) ∧
      (∀ p q : Fin (process_action "stop").2.length,
        isOff ((process_action "stop").2.get p) = true →
        isOn ((process_action "stop").2.get q) = true →
        (p : Nat) < (q : Nat))) ∧
    ((process_action "on_3").1.off_channel = [] ∧
      (process_action "on_3").1.on_channel = [] ∧
      (process_action "on_3").2 = []) :=
  ⟨(process_action_covers_all_relays "stop").2.1 (Or.inr (Or.inr (Or.inr rfl))),
   (process_action_covers_all_relays "on_3").2.2 (by decide)⟩

lemma cancelPending_fst (q : List Nat) :
    (cancelPending q).1 = q.map MainEvent.errback := by
  induction q with
  | nil => rfl
  | cons a q ih => simp [cancelPending, ih]

lemma cancelPending_snd (q : List Nat) : (cancelPending q).2 = [] := by
  induction q with
  | nil => rfl
  | cons a q ih => simp [cancelPending, ih]

lemma sent_mem_process_actions {a : Nat} {l : List Nat}
    (h : MainEvent.sent a ∈ process_actions l) : a ∈ l := by
  induction l with
  | nil => cases h
  | cons b l ih =>
    rcases List.mem_cons.1 h with h | h
    · rw [MainEvent.sent.injEq] at h
      subst h
      exact List.mem_cons_self _ _
    · exact List.mem_cons_of_mem _ (ih h)

lemma sent_mem_pollLoop {a : Nat} :
    ∀ (batches : List (List Nat)) (q : List Nat),
      MainEvent.sent a ∈ pollLoop q batches →
      a ∈ q ∨ ∃ batch ∈ batches, a ∈ batch := by
  intro batches
  induction batches with
  | nil =>
      intro q h
      exact Or.inl (sent_mem_process_actions h)
  | cons b rest ih =>
      intro q h
      rcases List.mem_append.1 h with h | h
      · rcases List.mem_append.1 (sent_mem_process_actions h) with h | h
        · exact Or.inl h
        · exact Or.inr ⟨b, List.mem_cons_self _ _, h⟩
      · rcases ih [] h with h | ⟨batch, hb, ha⟩
        · cases h
        · exact Or.inr ⟨batch, List.mem_cons_of_mem _ hb, ha⟩

/-- C10: when `HWPPCUAgent.main` starts, every action already in the action
queue is cancelled by firing its deferred's errback — these errbacks all
precede the polling loop's events, the polling loop starts from an empty
queue, and no action that is not enqueued after startup is ever handed to
`process_action` (so no pre-queued command ever reaches the PCU hardware). -/
theorem startup_cancels_pending_actions
    (initQueue : List Nat) (arrivals : List (List Nat)) :
    main initQueue arrivals =
      initQueue.map MainEvent.errback ++ pollLoop [] arrivals ∧
    (∀ a ∈ initQueue, MainEvent.errback a ∈ main initQueue arrivals) ∧
    (∀ a, MainEvent.sent a ∈ main initQueue arrivals →
      ∃ batch ∈ arrivals, a ∈ batch) ∧
    (∀ a ∈ initQueue, (∀ batch ∈ arrivals, a ∉ batch) →
      MainEvent.sent a ∉ main initQueue arrivals) := by
  have hmain : main initQueue arrivals =
      initQueue.map MainEvent.errback ++ pollLoop [] arrivals := by
    unfold main
    rw [cancelPending_fst, cancelPending_snd]
  have hsent : ∀ a, MainEvent.sent a ∈ main initQueue arrivals →
      ∃ batch ∈ arrivals, a ∈ batch := by
    intro a h
    rw [hmain] at h
    rcases List.mem_append.1 h with h | h
    · obtain ⟨x, -, hx⟩ := List.mem_map.1 h
      cases hx
    · rcases sent_mem_pollLoop arrivals [] h with h | h
      · cases h
      · exact h
  refine ⟨hmain, ?_, hsent, ?_⟩
  · intro a ha
    rw [hmain]
    exact List.mem_append_left _ (List.mem_map_of_mem _ ha)
  · intro a _ hnone h
    obtain ⟨batch, hb, hab⟩ := hsent a h
    exact hnone batch hb hab

/-- C10 witness: with actions 1 and 2 queued before startup and actions 3
and 4 arriving later, the pre-queued action 1 is errback-cancelled and is
never sent to the hardware. -/
theorem startup_cancels_pending_actions_witness :
    MainEvent.errback 1 ∈ main [1, 2] [[3], [4]] ∧
    MainEvent.sent 1 ∉ main [1, 2] [[3], [4]] :=
  ⟨(startup_cancels_pending_actions [1, 2] [[3], [4]]).2.1 1 (by decide),
   (startup_cancels_pending_actions [1, 2] [[3], [4]]).2.2.2 1 (by decide)
     (by decide)⟩

end HwpPcu
